import Mathlib

/-!
Verification of the packed uniform-buffer layout engine of the
Deferred-Shading-Demo repository (`src/UniformBuffer.cpp`, class
`UniforBuffer` — the typo is the source's).

Shallow embedding conventions:
* The byte sequence `buffer_` (a `std::vector<unsigned char>`) is a
  `List Nat` of byte values; `push_back` is append at the right end.
* `padding_` is a C++ `int` that only ever holds results of
  `(padding_ + size) % 16` starting from `0` with `size ≥ 0`, so it is
  embedded as a `Nat`; C++ `%` on non-negative operands agrees with
  `Nat.mod`.
* `ubo_` is a C++ `unsigned int` device handle, embedded as `Nat`; the
  sizes involved never reach `2^32` so no wrap-around can occur.
* `glGenBuffers` is an external driver call writing a fresh buffer name
  into `ubo_`; the generated name is modelled as an explicit parameter
  of `Init` (OpenGL guarantees generated names are nonzero).
* `glBufferData` uploads `buffer_.data()`/`buffer_.size()`; the upload
  performed by `SendToDevice` is modelled as the second component of
  its result.
* `AddToBuffer(void *data, int size)` copies `size` bytes from `data`
  (`memcpy` into a local array, then `push_back` one byte at a time);
  the bytes reachable from the pointer are the `List Nat` argument and
  the copied run is its first `size` entries.
-/

/-- State of `UniforBuffer` (fields `ubo_`, `buffer_`, `padding_` of
`src/UniformBuffer.cpp`). -/
structure UniforBuffer where
  ubo_ : Nat
  buffer_ : List Nat
  padding_ : Nat
  deriving Repr, DecidableEq

namespace UniforBuffer

/-- The constructor `UniforBuffer::UniforBuffer()`: `ubo_(0), padding_(0)`,
with `buffer_` default-constructed empty. -/
def new : UniforBuffer :=
  { ubo_ := 0, buffer_ := [], padding_ := 0 }

/-- `UniforBuffer::Init()`: `glGenBuffers(1, &ubo_)`; the driver-generated
buffer name is the parameter `handle`. -/
def Init (s : UniforBuffer) (handle : Nat) : UniforBuffer :=
  { s with ubo_ := handle }

/-- `UniforBuffer::FinishChunk()`: if `padding_ == 0` return; otherwise
push `0` for `i = padding_, ..., 15` (that is, `16 - padding_` zero bytes)
and set `padding_ = 0`. -/
def FinishChunk (s : UniforBuffer) : UniforBuffer :=
  if s.padding_ = 0 then s
  else { s with buffer_ := s.buffer_ ++ List.replicate (16 - s.padding_) 0,
                padding_ := 0 }

/-- `UniforBuffer::CheckChunk(int n)`: if `padding_ + n > 16` then
`FinishChunk()`. -/
def CheckChunk (s : UniforBuffer) (n : Nat) : UniforBuffer :=
  if 16 < s.padding_ + n then s.FinishChunk else s

/-- `UniforBuffer::AddToBuffer(void *data, int size)`: `CheckChunk(size)`,
copy `size` bytes of `data` onto the end of `buffer_`, then
`padding_ = (padding_ + size) % 16`. -/
def AddToBuffer (s : UniforBuffer) (data : List Nat) (size : Nat) :
    UniforBuffer :=
  let t := s.CheckChunk size
  { t with buffer_ := t.buffer_ ++ data.take size,
           padding_ := (t.padding_ + size) % 16 }

/-- The scalar template `UniforBuffer::Add<T>(T element)`, explicitly
instantiated for `int` and `float` (both `sizeof(T) == 4`):
`AddToBuffer(&element, sizeof(T))`. -/
def Add (s : UniforBuffer) (element : List Nat) : UniforBuffer :=
  s.AddToBuffer element 4

/-- `UniforBuffer::Add(glm::vec3)`: `AddToBuffer(value_ptr, 3 * sizeof(float))`. -/
def Add_vec3 (s : UniforBuffer) (element : List Nat) : UniforBuffer :=
  s.AddToBuffer element 12

/-- `UniforBuffer::Add(glm::vec4)`: `AddToBuffer(value_ptr, 4 * sizeof(float))`. -/
def Add_vec4 (s : UniforBuffer) (element : List Nat) : UniforBuffer :=
  s.AddToBuffer element 16

/-- `UniforBuffer::Add(glm::mat4)`: `AddToBuffer(value_ptr, 16 * sizeof(float))`,
a single 64-byte copy of the column-major matrix data. -/
def Add_mat4 (s : UniforBuffer) (element : List Nat) : UniforBuffer :=
  s.AddToBuffer element 64

/-- `UniforBuffer::SendToDevice()`: uploads `buffer_.size()` bytes from
`buffer_.data()` via `glBufferData`; the state is unchanged and the
uploaded payload is returned alongside it. -/
def SendToDevice (s : UniforBuffer) : UniforBuffer × List Nat :=
  (s, s.buffer_)

/-- `UniforBuffer::GetId()`: returns `ubo_`. -/
def GetId (s : UniforBuffer) : Nat :=
  s.ubo_

/-- Modelled from the spec: the repository's header `UniformBuffer.h`
(which declares the class and is not under `src/`) provides the `Clear()`
operation; per the spec it "empties the byte sequence and resets
`chunk_offset` to 0, without releasing the device handle". -/
def Clear (s : UniforBuffer) : UniforBuffer :=
  { s with buffer_ := [], padding_ := 0 }

/-- Little-endian byte image of a 32-bit integer, as `memcpy` of an `int`
produces on the demo's target platform. -/
def intBytes4 (v : Nat) : List Nat :=
  [v % 256, v / 256 % 256, v / 65536 % 256, v / 16777216 % 256]

/-- Modelled from the spec: the boolean append path (an `Add` entry point
for `bool`, declared in the missing header `UniformBuffer.h` / used by the
missing demo callers, not under `src/`): "A boolean value is appended as a
4-byte integer (0 or 1)". It forwards to the source's 4-byte scalar
`Add` instantiation for `int`. -/
def Add_bool (s : UniforBuffer) (b : Bool) : UniforBuffer :=
  s.Add (intBytes4 (if b then 1 else 0))

end UniforBuffer

/-- One engine operation that does not touch the device handle:
appends of the supported value shapes, `FinishChunk`, `SendToDevice`
(state part) and `Clear`. -/
inductive Op where
  | addScalar (data : List Nat)
  | addVec3 (data : List Nat)
  | addVec4 (data : List Nat)
  | addMat4 (data : List Nat)
  | finish
  | send
  | clear
  deriving Repr, DecidableEq

/-- Executing one operation on a buffer state. -/
def Op.apply (s : UniforBuffer) : Op → UniforBuffer
  | .addScalar d => s.Add d
  | .addVec3 d => s.Add_vec3 d
  | .addVec4 d => s.Add_vec4 d
  | .addMat4 d => s.Add_mat4 d
  | .finish => s.FinishChunk
  | .send => s.SendToDevice.1
  | .clear => s.Clear

/-- An append operation is well formed when the raw data it copies has
exactly the byte size the source passes to `AddToBuffer` (4 for the scalar
instantiations, 12 for `vec3`, 16 for `vec4`, 64 for `mat4`). -/
def Op.WF : Op → Prop
  | .addScalar d => d.length = 4
  | .addVec3 d => d.length = 12
  | .addVec4 d => d.length = 16
  | .addMat4 d => d.length = 64
  | .finish => True
  | .send => True
  | .clear => True

/-- Running a sequence of operations left to right. -/
def Op.run (s : UniforBuffer) (ops : List Op) : UniforBuffer :=
  ops.foldl Op.apply s

/-- The representation invariant relating the chunk offset to the byte
sequence: `padding_` is the length of the byte sequence modulo 16, and in
particular lies in `[0, 16)`. -/
def UniforBuffer.Inv (s : UniforBuffer) : Prop :=
  s.buffer_.length % 16 = s.padding_ ∧ s.padding_ < 16

namespace UniforBuffer

theorem FinishChunk_ubo (s : UniforBuffer) : s.FinishChunk.ubo_ = s.ubo_ := by
  unfold FinishChunk; split <;> rfl

theorem CheckChunk_ubo (s : UniforBuffer) (n : Nat) :
    (s.CheckChunk n).ubo_ = s.ubo_ := by
  unfold CheckChunk; split
  · exact s.FinishChunk_ubo
  · rfl

theorem AddToBuffer_ubo (s : UniforBuffer) (data : List Nat) (size : Nat) :
    (s.AddToBuffer data size).ubo_ = s.ubo_ := by
  unfold AddToBuffer
  exact s.CheckChunk_ubo size

theorem Inv_new : Inv new := by
  constructor <;> simp [new]

theorem Inv.finishChunk {s : UniforBuffer} (h : s.Inv) : s.FinishChunk.Inv := by
  rcases h with ⟨hmod, hlt⟩
  unfold FinishChunk
  split
  · exact ⟨hmod, hlt⟩
  · refine ⟨?_, by simp⟩
    simp only [List.length_append, List.length_replicate]
    omega

theorem Inv.checkChunk {s : UniforBuffer} (h : s.Inv) (n : Nat) :
    (s.CheckChunk n).Inv := by
  unfold CheckChunk
  split
  · exact h.finishChunk
  · exact h

theorem Inv.addToBuffer {s : UniforBuffer} (h : s.Inv) {data : List Nat}
    {size : Nat} (hdata : data.length = size) :
    (s.AddToBuffer data size).Inv := by
  rcases h.checkChunk size with ⟨hmod, hlt⟩
  unfold AddToBuffer
  refine ⟨?_, ?_⟩
  · simp only [List.length_append, List.length_take, hdata, Nat.min_self]
    omega
  · show ((s.CheckChunk size).padding_ + size) % 16 < 16
    omega

end UniforBuffer

theorem Op.apply_ubo (s : UniforBuffer) (op : Op) :
    (Op.apply s op).ubo_ = s.ubo_ := by
  cases op <;>
    simp [Op.apply, UniforBuffer.Add, UniforBuffer.Add_vec3, UniforBuffer.Add_vec4,
      UniforBuffer.Add_mat4, UniforBuffer.AddToBuffer_ubo, UniforBuffer.FinishChunk_ubo,
      UniforBuffer.SendToDevice, UniforBuffer.Clear]

theorem Op.run_ubo (ops : List Op) (s : UniforBuffer) :
    (Op.run s ops).ubo_ = s.ubo_ := by
  induction ops generalizing s with
  | nil => rfl
  | cons op ops ih =>
      show (Op.run (Op.apply s op) ops).ubo_ = s.ubo_
      rw [ih, Op.apply_ubo]

theorem Op.apply_Inv {s : UniforBuffer} (h : s.Inv) {op : Op} (hop : op.WF) :
    (Op.apply s op).Inv := by
  cases op with
  | addScalar d => exact h.addToBuffer hop
  | addVec3 d => exact h.addToBuffer hop
  | addVec4 d => exact h.addToBuffer hop
  | addMat4 d => exact h.addToBuffer hop
  | finish => exact h.finishChunk
  | send => exact h
  | clear =>
      exact ⟨by simp [Op.apply, UniforBuffer.Clear], by simp [Op.apply, UniforBuffer.Clear]⟩

theorem Op.run_Inv {s : UniforBuffer} (h : s.Inv) {ops : List Op}
    (hops : ∀ op ∈ ops, op.WF) : (Op.run s ops).Inv := by
  induction ops generalizing s with
  | nil => exact h
  | cons op ops ih =>
      exact ih (Op.apply_Inv h (hops op (by simp)))
        (fun o ho => hops o (by simp [ho]))

namespace UniforBuffer

theorem AddToBuffer_pad (s : UniforBuffer) (data : List Nat) (size : Nat)
    (hgt : 16 < s.padding_ + size) (hp0 : s.padding_ ≠ 0) :
    s.AddToBuffer data size =
      { s with
        buffer_ := s.buffer_ ++ List.replicate (16 - s.padding_) 0 ++ data.take size,
        padding_ := size % 16 } := by
  simp only [AddToBuffer, CheckChunk, FinishChunk, if_pos hgt, if_neg hp0]
  simp [List.append_assoc]

theorem AddToBuffer_nopad (s : UniforBuffer) (data : List Nat) (size : Nat)
    (hle : s.padding_ + size ≤ 16) :
    s.AddToBuffer data size =
      { s with buffer_ := s.buffer_ ++ data.take size,
               padding_ := (s.padding_ + size) % 16 } := by
  simp only [AddToBuffer, CheckChunk, if_neg (Nat.not_lt.mpr hle)]

theorem AddToBuffer_zero (s : UniforBuffer) (data : List Nat) (size : Nat)
    (hp0 : s.padding_ = 0) :
    s.AddToBuffer data size =
      { s with buffer_ := s.buffer_ ++ data.take size,
               padding_ := size % 16 } := by
  have hfc : s.FinishChunk = s := by unfold FinishChunk; rw [if_pos hp0]
  simp only [AddToBuffer, CheckChunk, hfc, ite_self, hp0, Nat.zero_add]

end UniforBuffer

namespace UniforBuffer

theorem FinishChunk_of_zero {s : UniforBuffer} (h0 : s.padding_ = 0) :
    s.FinishChunk = s := by
  unfold FinishChunk; rw [if_pos h0]

theorem FinishChunk_of_ne {s : UniforBuffer} (h0 : s.padding_ ≠ 0) :
    s.FinishChunk =
      { s with buffer_ := s.buffer_ ++ List.replicate (16 - s.padding_) 0,
               padding_ := 0 } := by
  unfold FinishChunk; rw [if_neg h0]

theorem FinishChunk_idem (s : UniforBuffer) :
    s.FinishChunk.FinishChunk = s.FinishChunk := by
  by_cases h0 : s.padding_ = 0
  · rw [FinishChunk_of_zero h0, FinishChunk_of_zero h0]
  · rw [FinishChunk_of_ne h0]
    exact FinishChunk_of_zero rfl

theorem FinishChunk_aligned_of_Inv {s : UniforBuffer} (h : s.Inv) :
    s.FinishChunk.padding_ = 0 ∧ s.FinishChunk.buffer_.length % 16 = 0 := by
  rcases h with ⟨htrack, hoff⟩
  by_cases h0 : s.padding_ = 0
  · rw [FinishChunk_of_zero h0]
    exact ⟨h0, by omega⟩
  · rw [FinishChunk_of_ne h0]
    refine ⟨rfl, ?_⟩
    simp only [List.length_append, List.length_replicate]
    omega

end UniforBuffer

namespace UniforBuffer

/-- Claim C1: for every `Append` of a supported value of size
`n ∈ {4, 12, 16}` bytes performed in a state whose chunk offset lies in
`[0, 16)` (and tracks the byte-sequence length, as in every reachable
state): if `chunk_offset + n > 16`, zero bytes are first appended up to the
next 16-byte boundary and the offset is reset to 0, and otherwise no
padding is inserted; then exactly the `n` input bytes are appended
verbatim, and afterwards the chunk offset equals
`(chunk_offset-at-copy-time + n) % 16`. -/
theorem append_respects_chunk_rule (s : UniforBuffer) (data : List Nat)
    (n : Nat) (hn : n = 4 ∨ n = 12 ∨ n = 16) (hlen : data.length = n)
    (hoff : s.padding_ < 16) (htrack : s.buffer_.length % 16 = s.padding_) :
    (16 < s.padding_ + n →
      (s.AddToBuffer data n).buffer_ =
          s.buffer_ ++ List.replicate (16 - s.padding_) 0 ++ data ∧
        (s.buffer_ ++ List.replicate (16 - s.padding_) 0).length % 16 = 0 ∧
        (s.AddToBuffer data n).padding_ = (0 + n) % 16) ∧
    (s.padding_ + n ≤ 16 →
      (s.AddToBuffer data n).buffer_ = s.buffer_ ++ data ∧
        (s.AddToBuffer data n).padding_ = (s.padding_ + n) % 16) := by
  have htake : data.take n = data := by rw [← hlen]; exact data.take_length
  have hn16 : n ≤ 16 := by rcases hn with h | h | h <;> omega
  constructor
  · intro hgt
    have hp0 : s.padding_ ≠ 0 := by omega
    rw [AddToBuffer_pad s data n hgt hp0]
    refine ⟨by simp [htake], ?_, by simp⟩
    simp only [List.length_append, List.length_replicate]
    omega
  · intro hle
    rw [AddToBuffer_nopad s data n hle]
    exact ⟨by simp [htake], by simp⟩

theorem append_respects_chunk_rule_witness :
    ((UniforBuffer.mk 0 [1, 2, 3, 4, 5, 6, 7, 8, 9, 10, 11, 12] 12).AddToBuffer
        [9, 9, 9, 9, 9, 9, 9, 9, 9, 9, 9, 9] 12).buffer_ =
      [1, 2, 3, 4, 5, 6, 7, 8, 9, 10, 11, 12] ++ List.replicate 4 0 ++
        [9, 9, 9, 9, 9, 9, 9, 9, 9, 9, 9, 9] :=
  ((append_respects_chunk_rule ⟨0, [1, 2, 3, 4, 5, 6, 7, 8, 9, 10, 11, 12], 12⟩
      [9, 9, 9, 9, 9, 9, 9, 9, 9, 9, 9, 9] 12 (by decide) (by decide)
      (by decide) (by decide)).1 (by decide)).1

/-- Claim C2: `FinishChunk` is a no-op when the chunk offset is 0; when the
offset is nonzero (in a state whose offset tracks the length, as in every
reachable state) it appends exactly the zero bytes needed — fewer than
16 — to make the byte-sequence length a multiple of 16, and resets the
offset to 0; and it is idempotent. -/
theorem finishChunk_pads_and_idempotent (s : UniforBuffer)
    (hoff : s.padding_ < 16) (htrack : s.buffer_.length % 16 = s.padding_) :
    (s.padding_ = 0 → s.FinishChunk = s) ∧
    (s.padding_ ≠ 0 →
      s.FinishChunk.buffer_ =
          s.buffer_ ++ List.replicate (16 - s.padding_) 0 ∧
        s.FinishChunk.buffer_.length % 16 = 0 ∧
        16 - s.padding_ < 16 ∧
        s.FinishChunk.padding_ = 0) ∧
    s.FinishChunk.FinishChunk = s.FinishChunk := by
  refine ⟨fun h0 => FinishChunk_of_zero h0, ?_, FinishChunk_idem s⟩
  intro hp0
  rw [FinishChunk_of_ne hp0]
  refine ⟨rfl, ?_, by omega, rfl⟩
  simp only [List.length_append, List.length_replicate]
  omega

theorem finishChunk_pads_and_idempotent_witness :
    (UniforBuffer.mk 0 [1, 2, 3, 4] 4).FinishChunk.buffer_ =
        [1, 2, 3, 4] ++ List.replicate 12 0 ∧
      (UniforBuffer.mk 0 [1, 2, 3, 4] 4).FinishChunk.buffer_.length % 16 = 0 ∧
      16 - (UniforBuffer.mk 0 [1, 2, 3, 4] 4).padding_ < 16 ∧
      (UniforBuffer.mk 0 [1, 2, 3, 4] 4).FinishChunk.padding_ = 0 :=
  (finishChunk_pads_and_idempotent ⟨0, [1, 2, 3, 4], 4⟩ (by decide)
      (by decide)).2.1 (by decide)

end UniforBuffer

namespace UniforBuffer

theorem Add_vec4_aligned {s : UniforBuffer} (h0 : s.padding_ = 0)
    {c : List Nat} (hc : c.length = 16) :
    s.Add_vec4 c = { s with buffer_ := s.buffer_ ++ c, padding_ := 0 } := by
  have htake : c.take 16 = c := by rw [← hc]; exact c.take_length
  rw [Add_vec4, AddToBuffer_zero s c 16 h0, htake]

theorem Add_vec4_unaligned {s : UniforBuffer} (h0 : s.padding_ ≠ 0)
    {c : List Nat} (hc : c.length = 16) :
    s.Add_vec4 c =
      { s with
        buffer_ := s.buffer_ ++ List.replicate (16 - s.padding_) 0 ++ c,
        padding_ := 0 } := by
  have htake : c.take 16 = c := by rw [← hc]; exact c.take_length
  rw [Add_vec4, AddToBuffer_pad s c 16 (by omega) h0, htake]

/-- Claim C3: from every state with chunk offset in `[0, 16)`, appending a
4×4 matrix yields exactly the state produced by four sequential vec4
appends of its four 16-byte columns in column order, each independently
chunk-checked; padding can be inserted only before the first column, never
between the four columns. -/
theorem mat4_refines_four_vec4 (s : UniforBuffer) (c1 c2 c3 c4 : List Nat)
    (h1 : c1.length = 16) (h2 : c2.length = 16) (h3 : c3.length = 16)
    (h4 : c4.length = 16) (hoff : s.padding_ < 16) :
    s.Add_mat4 (c1 ++ c2 ++ c3 ++ c4) =
        (((s.Add_vec4 c1).Add_vec4 c2).Add_vec4 c3).Add_vec4 c4 ∧
      ((s.Add_vec4 c1).Add_vec4 c2).buffer_ = (s.Add_vec4 c1).buffer_ ++ c2 ∧
      (((s.Add_vec4 c1).Add_vec4 c2).Add_vec4 c3).buffer_ =
          ((s.Add_vec4 c1).Add_vec4 c2).buffer_ ++ c3 ∧
      ((((s.Add_vec4 c1).Add_vec4 c2).Add_vec4 c3).Add_vec4 c4).buffer_ =
          (((s.Add_vec4 c1).Add_vec4 c2).Add_vec4 c3).buffer_ ++ c4 := by
  have hm : (c1 ++ c2 ++ c3 ++ c4).take 64 = c1 ++ c2 ++ c3 ++ c4 := by
    have hl : (c1 ++ c2 ++ c3 ++ c4).length = 64 := by
      simp [h1, h2, h3, h4]
    rw [← hl]; exact (c1 ++ c2 ++ c3 ++ c4).take_length
  by_cases h0 : s.padding_ = 0
  · have e1 := Add_vec4_aligned h0 h1
    have e2 := Add_vec4_aligned (s := s.Add_vec4 c1) (by rw [e1]) h2
    have e3 :=
      Add_vec4_aligned (s := (s.Add_vec4 c1).Add_vec4 c2) (by rw [e2]) h3
    have e4 :=
      Add_vec4_aligned (s := ((s.Add_vec4 c1).Add_vec4 c2).Add_vec4 c3)
        (by rw [e3]) h4
    have em := AddToBuffer_zero s (c1 ++ c2 ++ c3 ++ c4) 64 h0
    rw [Add_mat4] at *
    rw [em, hm, e4, e3, e2, e1]
    simp [List.append_assoc]
  · have e1 := Add_vec4_unaligned h0 h1
    have e2 := Add_vec4_aligned (s := s.Add_vec4 c1) (by rw [e1]) h2
    have e3 :=
      Add_vec4_aligned (s := (s.Add_vec4 c1).Add_vec4 c2) (by rw [e2]) h3
    have e4 :=
      Add_vec4_aligned (s := ((s.Add_vec4 c1).Add_vec4 c2).Add_vec4 c3)
        (by rw [e3]) h4
    have em := AddToBuffer_pad s (c1 ++ c2 ++ c3 ++ c4) 64 (by omega) h0
    rw [Add_mat4] at *
    rw [em, hm, e4, e3, e2, e1]
    simp [List.append_assoc]

theorem mat4_refines_four_vec4_witness :
    UniforBuffer.new.Add_mat4
        (List.replicate 16 1 ++ List.replicate 16 2 ++ List.replicate 16 3 ++
          List.replicate 16 4) =
      (((UniforBuffer.new.Add_vec4 (List.replicate 16 1)).Add_vec4
            (List.replicate 16 2)).Add_vec4
          (List.replicate 16 3)).Add_vec4 (List.replicate 16 4) :=
  (mat4_refines_four_vec4 UniforBuffer.new (List.replicate 16 1)
      (List.replicate 16 2) (List.replicate 16 3) (List.replicate 16 4)
      (by decide) (by decide) (by decide) (by decide) (by decide)).1

/-- Claim C4: from the empty buffer, `Append(vec3)`, `Append(vec3)`,
`Append(4-byte scalar)`, `FinishChunk` produces exactly the 32-byte
sequence: first vec3, then 4 zero padding bytes, then the second vec3,
then the scalar, with the final `FinishChunk` appending nothing. -/
theorem vec3_vec3_scalar_layout (a b c : List Nat) (ha : a.length = 12)
    (hb : b.length = 12) (hc : c.length = 4) :
    (((UniforBuffer.new.Add_vec3 a).Add_vec3 b).Add c).FinishChunk.buffer_ =
        a ++ List.replicate 4 0 ++ b ++ c ∧
      (((UniforBuffer.new.Add_vec3 a).Add_vec3 b).Add c).FinishChunk.buffer_.length
          = 32 ∧
      (((UniforBuffer.new.Add_vec3 a).Add_vec3 b).Add c).FinishChunk =
        ((UniforBuffer.new.Add_vec3 a).Add_vec3 b).Add c := by
  have hta : a.take 12 = a := by rw [← ha]; exact a.take_length
  have htb : b.take 12 = b := by rw [← hb]; exact b.take_length
  have htc : c.take 4 = c := by rw [← hc]; exact c.take_length
  have e1 : UniforBuffer.new.Add_vec3 a =
      { ubo_ := 0, buffer_ := a, padding_ := 12 } := by
    rw [Add_vec3, AddToBuffer_zero UniforBuffer.new a 12 rfl, hta]
    rfl
  have e2 : (UniforBuffer.new.Add_vec3 a).Add_vec3 b =
      { ubo_ := 0, buffer_ := a ++ List.replicate 4 0 ++ b, padding_ := 12 } := by
    rw [Add_vec3, e1, AddToBuffer_pad _ b 12 (by simp) (by simp), htb]
    simp
  have e3 : ((UniforBuffer.new.Add_vec3 a).Add_vec3 b).Add c =
      { ubo_ := 0, buffer_ := a ++ List.replicate 4 0 ++ b ++ c,
        padding_ := 0 } := by
    rw [Add, e2, AddToBuffer_nopad _ c 4 (by simp), htc]
    simp
  have e4 := FinishChunk_of_zero (s := ((UniforBuffer.new.Add_vec3 a).Add_vec3 b).Add c)
    (by rw [e3])
  rw [e4, e3]
  refine ⟨rfl, ?_, rfl⟩
  simp [ha, hb, hc]

theorem vec3_vec3_scalar_layout_witness :
    (((UniforBuffer.new.Add_vec3
            [1, 2, 3, 4, 5, 6, 7, 8, 9, 10, 11, 12]).Add_vec3
          [21, 22, 23, 24, 25, 26, 27, 28, 29, 30, 31, 32]).Add
        [41, 42, 43, 44]).FinishChunk.buffer_ =
      [1, 2, 3, 4, 5, 6, 7, 8, 9, 10, 11, 12] ++ List.replicate 4 0 ++
        [21, 22, 23, 24, 25, 26, 27, 28, 29, 30, 31, 32] ++ [41, 42, 43, 44] :=
  (vec3_vec3_scalar_layout [1, 2, 3, 4, 5, 6, 7, 8, 9, 10, 11, 12]
      [21, 22, 23, 24, 25, 26, 27, 28, 29, 30, 31, 32] [41, 42, 43, 44]
      (by decide) (by decide) (by decide)).1

end UniforBuffer

namespace UniforBuffer

/-- Claim C5: immediately after any `FinishChunk` call on a state whose
chunk offset tracks the byte-sequence length (as in every reachable
state) — in particular after any sequence of 4-byte scalar appends from
the fresh buffer followed by `FinishChunk` — the chunk offset is 0 and the
byte-sequence length is a multiple of 16. -/
theorem finishChunk_aligns (s : UniforBuffer) (hoff : s.padding_ < 16)
    (htrack : s.buffer_.length % 16 = s.padding_) (ds : List (List Nat))
    (hds : ∀ d ∈ ds, d.length = 4) :
    (s.FinishChunk.padding_ = 0 ∧ s.FinishChunk.buffer_.length % 16 = 0) ∧
      ((Op.run UniforBuffer.new (ds.map Op.addScalar)).FinishChunk.padding_ = 0 ∧
        (Op.run UniforBuffer.new
            (ds.map Op.addScalar)).FinishChunk.buffer_.length % 16 = 0) := by
  have hwf : ∀ op ∈ ds.map Op.addScalar, op.WF := by
    intro op hop
    rcases List.mem_map.mp hop with ⟨d, hd, rfl⟩
    exact hds d hd
  exact ⟨FinishChunk_aligned_of_Inv ⟨htrack, hoff⟩,
    FinishChunk_aligned_of_Inv (Op.run_Inv Inv_new hwf)⟩

theorem finishChunk_aligns_witness :
    ((UniforBuffer.mk 0 [1, 2, 3] 3).FinishChunk.padding_ = 0 ∧
      (UniforBuffer.mk 0 [1, 2, 3] 3).FinishChunk.buffer_.length % 16 = 0) ∧
      ((Op.run UniforBuffer.new
            ([[1, 2, 3, 4]].map Op.addScalar)).FinishChunk.padding_ = 0 ∧
        (Op.run UniforBuffer.new
            ([[1, 2, 3, 4]].map Op.addScalar)).FinishChunk.buffer_.length % 16
          = 0) :=
  finishChunk_aligns ⟨0, [1, 2, 3], 3⟩ (by decide) (by decide) [[1, 2, 3, 4]]
    (by decide)

/-- Claim C6: the chunk offset is below 16 (and, being a natural number,
at least 0) in the freshly constructed state, and this bound is preserved
by every operation: `AddToBuffer` and each typed `Add` overload,
`FinishChunk`, `Init`, and `SendToDevice`. -/
theorem chunk_offset_bounded :
    UniforBuffer.new.padding_ < 16 ∧
      (∀ (s : UniforBuffer) (data : List Nat) (size : Nat),
        s.padding_ < 16 → (s.AddToBuffer data size).padding_ < 16) ∧
      (∀ (s : UniforBuffer) (d : List Nat),
        s.padding_ < 16 → (s.Add d).padding_ < 16) ∧
      (∀ (s : UniforBuffer) (d : List Nat),
        s.padding_ < 16 → (s.Add_vec3 d).padding_ < 16) ∧
      (∀ (s : UniforBuffer) (d : List Nat),
        s.padding_ < 16 → (s.Add_vec4 d).padding_ < 16) ∧
      (∀ (s : UniforBuffer) (d : List Nat),
        s.padding_ < 16 → (s.Add_mat4 d).padding_ < 16) ∧
      (∀ s : UniforBuffer, s.padding_ < 16 → s.FinishChunk.padding_ < 16) ∧
      (∀ (s : UniforBuffer) (handle : Nat),
        s.padding_ < 16 → (s.Init handle).padding_ < 16) ∧
      (∀ s : UniforBuffer, s.padding_ < 16 → s.SendToDevice.1.padding_ < 16) := by
  have hadd : ∀ (s : UniforBuffer) (data : List Nat) (size : Nat),
      (s.AddToBuffer data size).padding_ < 16 := by
    intro s data size
    show ((s.CheckChunk size).padding_ + size) % 16 < 16
    omega
  refine ⟨by simp [new], fun s data size _ => hadd s data size,
    fun s d _ => hadd s d 4, fun s d _ => hadd s d 12, fun s d _ => hadd s d 16,
    fun s d _ => hadd s d 64, ?_, fun s handle h => h, fun s h => h⟩
  intro s h
  by_cases h0 : s.padding_ = 0
  · rw [FinishChunk_of_zero h0]; exact h
  · rw [FinishChunk_of_ne h0]; simp

theorem chunk_offset_bounded_witness :
    (UniforBuffer.new.AddToBuffer [1, 2, 3, 4] 4).padding_ < 16 :=
  chunk_offset_bounded.2.1 UniforBuffer.new [1, 2, 3, 4] 4 (by decide)

end UniforBuffer

/-- Claim C7: `GetId` returns the sentinel value 0 in every state reached
from construction without `Init`; after `Init` generates a (nonzero)
handle, every further sequence of appends, `FinishChunk`, `SendToDevice`
and `Clear` leaves `GetId` equal to that same non-sentinel handle. -/
theorem getId_sentinel_and_stable (ops1 ops2 : List Op) (handle : Nat)
    (hhandle : handle ≠ 0) :
    (Op.run UniforBuffer.new ops1).GetId = 0 ∧
      (Op.run ((Op.run UniforBuffer.new ops1).Init handle) ops2).GetId =
        handle ∧
      (Op.run ((Op.run UniforBuffer.new ops1).Init handle) ops2).GetId ≠ 0 := by
  have h1 : (Op.run UniforBuffer.new ops1).GetId = 0 := by
    show (Op.run UniforBuffer.new ops1).ubo_ = 0
    rw [Op.run_ubo]
    rfl
  have h2 : (Op.run ((Op.run UniforBuffer.new ops1).Init handle) ops2).GetId =
      handle := by
    show (Op.run ((Op.run UniforBuffer.new ops1).Init handle) ops2).ubo_ =
      handle
    rw [Op.run_ubo]
    rfl
  exact ⟨h1, h2, by rw [h2]; exact hhandle⟩

theorem getId_sentinel_and_stable_witness :
    (Op.run UniforBuffer.new [Op.finish]).GetId = 0 ∧
      (Op.run ((Op.run UniforBuffer.new [Op.finish]).Init 7)
          [Op.addScalar [1, 2, 3, 4], Op.finish, Op.send, Op.clear]).GetId = 7 ∧
      (Op.run ((Op.run UniforBuffer.new [Op.finish]).Init 7)
          [Op.addScalar [1, 2, 3, 4], Op.finish, Op.send, Op.clear]).GetId ≠ 0 :=
  getId_sentinel_and_stable [Op.finish]
    [Op.addScalar [1, 2, 3, 4], Op.finish, Op.send, Op.clear] 7 (by decide)

namespace UniforBuffer

/-- Claim C8: appending a boolean value appends the 4-byte integer image of
0 or 1 — occupying 4 bytes of the byte sequence, not 1 — through the
engine's scalar append entry point (possibly preceded by chunk padding,
like any 4-byte scalar). -/
theorem bool_appends_four_byte_int (s : UniforBuffer) (b : Bool)
    (hoff : s.padding_ < 16) :
    (s.Add_bool b).buffer_ =
        s.buffer_ ++
          (if 16 < s.padding_ + 4 then List.replicate (16 - s.padding_) 0
            else []) ++
          intBytes4 (if b then 1 else 0) ∧
      (intBytes4 (if b then 1 else 0)).length = 4 ∧
      (if b then (1 : Nat) else 0) ≤ 1 := by
  have htake : (intBytes4 (if b then (1 : Nat) else 0)).take 4 =
      intBytes4 (if b then 1 else 0) := by
    simp [intBytes4]
  refine ⟨?_, by simp [intBytes4], by cases b <;> simp⟩
  rw [Add_bool, Add]
  by_cases hgt : 16 < s.padding_ + 4
  · have hp0 : s.padding_ ≠ 0 := by omega
    rw [AddToBuffer_pad s _ 4 hgt hp0, if_pos hgt]
    simp [htake]
  · rw [AddToBuffer_nopad s _ 4 (by omega), if_neg hgt]
    simp [htake]

theorem bool_appends_four_byte_int_witness :
    (UniforBuffer.new.Add_bool true).buffer_ =
        UniforBuffer.new.buffer_ ++
          (if 16 < UniforBuffer.new.padding_ + 4 then
            List.replicate (16 - UniforBuffer.new.padding_) 0
          else []) ++
          intBytes4 (if true then 1 else 0) ∧
      (intBytes4 (if true then 1 else 0)).length = 4 ∧
      (if true then (1 : Nat) else 0) ≤ 1 :=
  bool_appends_four_byte_int UniforBuffer.new true (by decide)

/-- Claim C9: `Clear` empties the byte sequence and resets the chunk offset
to 0 in every state while leaving the device handle unchanged, so `Clear`
followed by `SendToDevice` with zero appends uploads a zero-length
payload. -/
theorem clear_resets_keeps_handle (s : UniforBuffer) :
    s.Clear.buffer_ = [] ∧ s.Clear.padding_ = 0 ∧ s.Clear.GetId = s.GetId ∧
      s.Clear.SendToDevice.2 = [] ∧ s.Clear.SendToDevice.2.length = 0 :=
  ⟨rfl, rfl, rfl, rfl, rfl⟩

end UniforBuffer

/-- Claim C10: after every sequence of well-formed operations from the
freshly constructed buffer (appends of the supported value shapes,
`FinishChunk`, `SendToDevice`, `Clear`), the chunk offset equals the
byte-sequence length modulo 16. -/
theorem chunk_offset_tracks_length (ops : List Op)
    (hops : ∀ op ∈ ops, op.WF) :
    (Op.run UniforBuffer.new ops).buffer_.length % 16 =
      (Op.run UniforBuffer.new ops).padding_ :=
  (Op.run_Inv UniforBuffer.Inv_new hops).1

theorem chunk_offset_tracks_length_witness :
    (Op.run UniforBuffer.new
        [Op.addVec3 [1, 2, 3, 4, 5, 6, 7, 8, 9, 10, 11, 12],
          Op.addScalar [5, 6, 7, 8], Op.finish]).buffer_.length % 16 =
      (Op.run UniforBuffer.new
        [Op.addVec3 [1, 2, 3, 4, 5, 6, 7, 8, 9, 10, 11, 12],
          Op.addScalar [5, 6, 7, 8], Op.finish]).padding_ :=
  chunk_offset_tracks_length
    [Op.addVec3 [1, 2, 3, 4, 5, 6, 7, 8, 9, 10, 11, 12],
      Op.addScalar [5, 6, 7, 8], Op.finish]
    (by simp [Op.WF])
